import Mathlib

/- Verification of the ViajeIA travel-assistant backend
   (backend/app/main.py) against its natural-language specification.

   Modelling conventions:
   * text is `List Char` (abbrev `Txt`); Python `Optional` is `Option`;
   * JSON payloads are an inductive `Json` whose numbers are rationals
     (Python floats are dyadic rationals; no claim depends on binary
     float rounding, and numeric display formats are modelled as exact
     rational rounding);
   * Python code that can raise is modelled in `Except PyErr`;
   * each outbound HTTP call is a parameter of type `RResp`:
     `.error ()` stands for a raised `requests.RequestException`
     (network failure, timeout, non-2xx via `raise_for_status`, or an
     unparsable JSON body), `.ok j` for a parsed JSON payload `j`. -/

abbrev Txt := List Char

/-- Python whitespace class used by `str.strip()` and `str.split()`
(the ASCII portion; `' '`, `\t`, `\n`, `\r`, `\x0b`, `\x0c`). -/
def isWs (c : Char) : Bool :=
  c == ' ' || c == '\t' || c == '\n' || c == '\r' || c == '\x0B' || c == '\x0C'

/-- Remove trailing characters satisfying `p` (one side of `str.strip`). -/
def dropTrailing (p : Char → Bool) (l : Txt) : Txt :=
  (l.reverse.dropWhile p).reverse

/-- Python `str.strip(chars)`: remove the characters satisfying `p` from
both ends. -/
def pyStrip (p : Char → Bool) (l : Txt) : Txt :=
  dropTrailing p (l.dropWhile p)

/-- Python `str.strip()` (no argument): strip whitespace from both ends. -/
def pyStripWs (l : Txt) : Txt := pyStrip isWs l

def isDot (c : Char) : Bool := c == '.'

/-- Python `str.strip(".")`: strip periods from both ends. -/
def pyStripDots (l : Txt) : Txt := pyStrip isDot l

/-- Whether `marker` occurs at the head of `t`. -/
def isPre : Txt → Txt → Bool
  | [], _ => true
  | _ :: _, [] => false
  | a :: as, b :: bs => a == b && isPre as bs

/-- Suffix of `t` after the first occurrence of `marker`: Python
`t.split(marker, 1)[1]` when `marker in t`, `none` otherwise. -/
def afterFirst (marker : Txt) : Txt → Option Txt
  | [] => if marker = [] then some [] else none
  | c :: cs =>
    if isPre marker (c :: cs) then some ((c :: cs).drop marker.length)
    else afterFirst marker cs

/-- Index of the first occurrence of `marker` in `t`, if any. -/
def firstIndexOf (marker : Txt) : Txt → Option Nat
  | [] => if marker = [] then some 0 else none
  | c :: cs =>
    if isPre marker (c :: cs) then some 0
    else (firstIndexOf marker cs).map (· + 1)

/-- backend/app/main.py, `extract_field` (lines 82-88): take the text
after the first `"<label>:"`, cut at the next `"|"`, strip whitespace,
then strip periods from both ends; empty results become `None`. -/
def extract_field (text label : Txt) : Option Txt :=
  let marker := label ++ [':']
  match afterFirst marker text with
  | none => none
  | some segmento =>
    let posible := pyStripDots (pyStripWs (segmento.takeWhile (fun c => !(c == '|'))))
    if posible = [] then none else some posible

/-- backend/app/main.py, `extract_destino` (lines 91-92). -/
def extract_destino (text : Txt) : Option Txt :=
  extract_field text ("Destino deseado".toList)

/-- The spec's wording for the field extractor, taken literally: the
substring between the first `"<label>:"` and the next `"|"` (or the end
of the text), trimmed of whitespace and of *trailing* periods only. -/
def extract_field_spec (text label : Txt) : Option Txt :=
  let marker := label ++ [':']
  match afterFirst marker text with
  | none => none
  | some segmento =>
    let posible := dropTrailing isDot (pyStripWs (segmento.takeWhile (fun c => !(c == '|'))))
    if posible = [] then none else some posible

/-- Index-and-slice reading of the amended contract: the segment of
`text` strictly between the first occurrence of `"<label>:"` and the
next `"|"` (or the end of the text), stripped of whitespace and then of
leading and trailing periods; `none` when the marker is absent or the
cleaned segment is empty. -/
def extract_field_sliced (text label : Txt) : Option Txt :=
  let marker := label ++ [':']
  match firstIndexOf marker text with
  | none => none
  | some i =>
    let start := i + marker.length
    let stop :=
      match firstIndexOf ['|'] (text.drop start) with
      | some j => start + j
      | none => text.length
    let cleaned := pyStripDots (pyStripWs ((text.take stop).drop start))
    if cleaned = [] then none else some cleaned

/-- Python `str.split()` with no argument: split on runs of whitespace,
dropping empty pieces; `acc` carries the (reversed) word in progress. -/
def pySplitAux : Txt → Txt → List Txt
  | [], acc => if acc = [] then [] else [acc.reverse]
  | c :: cs, acc =>
    if isWs c then
      if acc = [] then pySplitAux cs [] else acc.reverse :: pySplitAux cs []
    else pySplitAux cs (c :: acc)

def pySplit (t : Txt) : List Txt := pySplitAux t []

/-- Python `" ".join(words)`. -/
def joinSpace : List Txt → Txt
  | [] => []
  | [w] => w
  | w :: rest => w ++ ' ' :: joinSpace rest

/-- One iteration of the `for word in words` loop of `wrap_text`
(backend/app/main.py lines 279-286), acting on the loop state
`(lines, current, current_len)`. -/
def wrapStep (width : Nat) (st : List Txt × List Txt × Nat) (word : Txt) :
    List Txt × List Txt × Nat :=
  let lines := st.1
  let current := st.2.1
  let current_len := st.2.2
  if current_len + word.length + (if current = [] then 0 else 1) > width then
    (lines ++ [joinSpace current], [word], word.length)
  else
    (lines, current ++ [word],
     current_len + word.length + (if current_len = 0 then 0 else 1))

/-- backend/app/main.py, `wrap_text` (lines 274-289). -/
def wrap_text (text : Txt) (width : Nat) : List Txt :=
  let words := pySplit text
  let res := words.foldl (wrapStep width) ([], [], 0)
  let lines := if res.2.1 = [] then res.1 else res.1 ++ [joinSpace res.2.1]
  if lines = [] then [text] else lines

/-- Errors a Python expression can raise in the modelled fragment. -/
inductive PyErr where
  | attributeError
  | indexError
  | keyError
  | typeError
  | valueError
  | stopIteration
  | httpException (status : Nat) (detail : Txt)
deriving DecidableEq

inductive Json where
  | null
  | bool (b : Bool)
  | num (q : ℚ)
  | str (s : Txt)
  | arr (xs : List Json)
  | obj (fields : List (Txt × Json))

/-- Outcome of one `requests.get(...)` + `raise_for_status()` + `.json()`
sequence: `.error ()` when a `requests.RequestException` was raised and
caught (network failure, timeout, non-2xx status, unparsable body),
`.ok j` when a JSON document `j` was obtained. -/
abbrev RResp := Except Unit Json

/-- Python truthiness of a parsed-JSON value. -/
def jTruthy : Json → Bool
  | .null => false
  | .bool b => b
  | .num q => !(q == 0)
  | .str s => !(s.isEmpty)
  | .arr xs => !(xs.isEmpty)
  | .obj fs => !(fs.isEmpty)

/-- Truthiness of an optional string (Python `None` and `""` are falsy). -/
def optTruthy : Option Txt → Bool
  | none => false
  | some s => !(s.isEmpty)

def optText (o : Option Txt) : Txt := o.getD []

/-- Python `a or b` on strings, with `None` collapsed to `""`. -/
def pyOrText (a b : Txt) : Txt := if a = [] then b else a

/-- First value bound to key `k` in a JSON object's field list (Python
dicts have unique keys, so first-match lookup is exact). -/
def jLookup : List (Txt × Json) → Txt → Option Json
  | [], _ => none
  | (k, v) :: rest, key => if k = key then some v else jLookup rest key

/-- Python `d.get(k, default)`: raises `AttributeError` unless `d` is a
dict (JSON object); a stored JSON `null` is returned as-is, exactly as a
stored Python `None` would be. -/
def pyGetD (j : Json) (k : Txt) (dflt : Json) : Except PyErr Json :=
  match j with
  | .obj fields => .ok ((jLookup fields k).getD dflt)
  | _ => .error .attributeError

/-- Python `d.get(k)` (default `None`). -/
def pyGet (j : Json) (k : Txt) : Except PyErr Json := pyGetD j k .null

/-- Python `x[0]` on a parsed-JSON value: first element of a list, first
character of a nonempty string; `IndexError` when empty, `KeyError` for
dicts (their keys are strings, never `0`), `TypeError` otherwise. -/
def pyIndex0 : Json → Except PyErr Json
  | .arr (x :: _) => .ok x
  | .arr [] => .error .indexError
  | .str (c :: _) => .ok (.str [c])
  | .str [] => .error .indexError
  | .obj _ => .error .keyError
  | _ => .error .typeError

/-- Python `str.capitalize()`: first character upper-cased, the rest
lower-cased (ASCII portion). -/
def pyCapitalize : Txt → Txt
  | [] => []
  | c :: cs => c.toUpper :: cs.map Char.toLower

/-- `x.capitalize()` on a parsed-JSON value: only strings have it. -/
def pyCapitalizeJ : Json → Except PyErr Txt
  | .str s => .ok (pyCapitalize s)
  | _ => .error .attributeError

/-- Python `str.upper()` (ASCII portion; currency codes are ASCII). -/
def pyUpper (s : Txt) : Txt := s.map Char.toUpper

/-- Python `next(iter(d.keys()))`. -/
def pyFirstKey : Json → Except PyErr Txt
  | .obj ((k, _) :: _) => .ok k
  | .obj [] => .error .stopIteration
  | _ => .error .attributeError

/-- Python `for x in j`: list elements, string characters, dict keys;
`TypeError` otherwise. -/
def pyIterate : Json → Except PyErr (List Json)
  | .arr xs => .ok xs
  | .str s => .ok (s.map (fun c => .str [c]))
  | .obj fs => .ok (fs.map (fun kv => .str kv.1))
  | _ => .error .typeError

def natToText (n : ℕ) : Txt := (Nat.repr n).toList

def intToText (i : ℤ) : Txt := (if i < 0 then ['-'] else []) ++ natToText i.natAbs

/-- Rational subtraction, spelled with `mkRat` so that it evaluates by
kernel reduction (the library's `Rat.sub` is irreducible); `qSub_eq`
below proves it equal to `a - b`. -/
def qSub (a b : ℚ) : ℚ := mkRat (a.num * b.den - b.num * a.den) (a.den * b.den)

/-- Rational-by-natural multiplication via `mkRat` (see `qMulNat_eq`). -/
def qMulNat (a : ℚ) (n : ℕ) : ℚ := mkRat (a.num * n) a.den

/-- Absolute value of a rational via `mkRat` (see `qAbs_eq`). -/
def qAbs (q : ℚ) : ℚ := mkRat q.num.natAbs q.den

/-- Decimal digits of a rational in `[0, 1)`, fuel-bounded (1100 digits
cover every exact binary-float fraction; display-only helper). -/
def decDigitsFuel : ℕ → ℚ → Txt
  | 0, _ => []
  | fuel + 1, q =>
    if q = 0 then []
    else
      let q10 := qMulNat q 10
      let d := Rat.floor q10
      Char.ofNat (48 + d.toNat) :: decDigitsFuel fuel (qSub q10 (mkRat d 1))

/-- Python `str()` of a JSON number (ints print as ints, other values
with their decimal expansion). -/
def pyNumStr (q : ℚ) : Txt :=
  if q.den = 1 then intToText q.num
  else
    let a := qAbs q
    let ip := Rat.floor a
    (if q < 0 then ['-'] else []) ++ intToText ip ++
      '.' :: decDigitsFuel 1100 (qSub a (mkRat ip 1))

mutual
def jsonRepr : Json → Txt
  | .null => "None".toList
  | .bool true => "True".toList
  | .bool false => "False".toList
  | .num q => pyNumStr q
  | .str s => '\'' :: s ++ ['\'']
  | .arr xs => '[' :: jsonReprItems xs ++ [']']
  | .obj fs => '\x7b' :: jsonReprFields fs ++ ['\x7d']
def jsonReprItems : List Json → Txt
  | [] => []
  | [x] => jsonRepr x
  | x :: xs => jsonRepr x ++ ',' :: ' ' :: jsonReprItems xs
def jsonReprFields : List (Txt × Json) → Txt
  | [] => []
  | [(k, v)] => '\'' :: k ++ '\'' :: ':' :: ' ' :: jsonRepr v
  | (k, v) :: fs =>
    '\'' :: k ++ '\'' :: ':' :: ' ' :: jsonRepr v ++ ',' :: ' ' :: jsonReprFields fs
end

/-- Python `str(x)` of a parsed-JSON value as it appears inside an
f-string (top-level strings are unquoted). -/
def pyToStr : Json → Txt
  | .str s => s
  | j => jsonRepr j

/-- Round half to even, as Python's `format` does (modelled exactly on
rationals). Written on the numerator/denominator so it evaluates by
kernel reduction: `f` is the floor, and `2 * (q.num % q.den)` compares
the fractional part against one half. -/
def roundHalfEven (q : ℚ) : ℤ :=
  let d := (q.den : ℤ)
  let f := q.num / d
  let r2 := 2 * (q.num % d)
  if r2 < d then f
  else if d < r2 then f + 1
  else if f % 2 = 0 then f else f + 1

def padZeroLeft (d : ℕ) (s : Txt) : Txt :=
  List.replicate (d - s.length) '0' ++ s

/-- Python `f"{q:.Df}"`: fixed-point with `D` decimals. -/
def formatFixed (decimals : ℕ) (q : ℚ) : Txt :=
  let p : ℕ := 10 ^ decimals
  let scaled := roundHalfEven (qMulNat q p)
  let n := scaled.natAbs
  (if scaled < 0 then ['-'] else []) ++ natToText (n / p) ++
    (if decimals = 0 then [] else '.' :: padZeroLeft decimals (natToText (n % p)))

def groupRev : Txt → Txt
  | a :: b :: c :: d :: rest => a :: b :: c :: ',' :: groupRev (d :: rest)
  | l => l

/-- Insert thousands separators into a digit string. -/
def commaGroup (s : Txt) : Txt := (groupRev s.reverse).reverse

/-- Python `f"{q:,.2f}"`: two decimals, thousands separators. -/
def formatComma2 (q : ℚ) : Txt :=
  let scaled := roundHalfEven (qMulNat q 100)
  let n := scaled.natAbs
  (if scaled < 0 then ['-'] else []) ++ commaGroup (natToText (n / 100)) ++
    '.' :: padZeroLeft 2 (natToText (n % 100))

/-- Python `f"{x:.0f}"` on a parsed-JSON value: numbers format, bools
format as ints, strings raise `ValueError`, the rest `TypeError`. -/
def formatFixed0Json : Json → Except PyErr Txt
  | .num q => .ok (formatFixed 0 q)
  | .bool b => .ok (formatFixed 0 (if b then 1 else 0))
  | .str _ => .error .valueError
  | _ => .error .typeError

/-- Python `f"{x:,.2f}"` on a parsed-JSON value. -/
def formatComma2Json : Json → Except PyErr Txt
  | .num q => .ok (formatComma2 q)
  | .bool b => .ok (formatComma2 (if b then 1 else 0))
  | .str _ => .error .valueError
  | _ => .error .typeError

/-- `HistoryEntry` (backend/app/main.py lines 46-50): one conversation
turn. -/
structure HistoryEntry where
  pregunta : Txt
  respuesta : Option Txt
  destino : Option Txt
  timestamp : Txt
deriving DecidableEq, Inhabited

/-- `PanelSection` (lines 58-61). -/
structure PanelSection where
  label : Txt
  value : Txt
  description : Option Txt
deriving DecidableEq

/-- `PanelInfo` (lines 64-67). -/
structure PanelInfo where
  currency : Option PanelSection
  time : Option PanelSection
  weather : Option PanelSection
deriving DecidableEq, Inhabited

/-- The dict built by `get_weather_data` (lines 117-126); apart from
`summary` (always a capitalized string) the values come straight from
the payload and may be any JSON value. -/
structure WeatherData where
  summary : Txt
  temperature : Json
  feels_like : Json
  humidity : Json
  wind : Json
  country : Json
  timezone_offset : Json
  city : Json

/-- backend/app/main.py, `get_weather_data` (lines 95-126). Field-access
steps follow the source's evaluation order; only the HTTP call is inside
the `try`, so payload-shape errors escape. -/
def get_weather_data (apiKey destino : Option Txt) (resp : RResp) :
    Except PyErr (Option WeatherData) :=
  if !(optTruthy apiKey) || !(optTruthy destino) then .ok none else
  match resp with
  | .error _ => .ok none
  | .ok data =>
    match pyGetD data ("weather".toList) (Json.arr [Json.obj []]) with
    | .error e => .error e
    | .ok wfield =>
    match pyIndex0 wfield with
    | .error e => .error e
    | .ok weather =>
    match pyGetD data ("main".toList) (Json.obj []) with
    | .error e => .error e
    | .ok main =>
    match pyGetD weather ("description".toList) (Json.str []) with
    | .error e => .error e
    | .ok descr =>
    match pyCapitalizeJ descr with
    | .error e => .error e
    | .ok summary =>
    match pyGet main ("temp".toList) with
    | .error e => .error e
    | .ok temperature =>
    match pyGet main ("feels_like".toList) with
    | .error e => .error e
    | .ok feels =>
    match pyGet main ("humidity".toList) with
    | .error e => .error e
    | .ok humidity =>
    match pyGetD data ("wind".toList) (Json.obj []) with
    | .error e => .error e
    | .ok windObj =>
    match pyGet windObj ("speed".toList) with
    | .error e => .error e
    | .ok wind =>
    match pyGetD data ("sys".toList) (Json.obj []) with
    | .error e => .error e
    | .ok sysObj =>
    match pyGet sysObj ("country".toList) with
    | .error e => .error e
    | .ok country =>
    match pyGet data ("timezone".toList) with
    | .error e => .error e
    | .ok tzoff =>
    match pyGet data ("name".toList) with
    | .error e => .error e
    | .ok nameJ =>
      .ok (some ⟨summary, temperature, feels, humidity, wind, country, tzoff,
                 if jTruthy nameJ then nameJ else Json.str (optText destino)⟩)

/-- The `for item in results` loop of `get_destination_photos`
(lines 154-157), accumulating truthy `urls.regular` values. -/
def photo_urls : List Json → List Json → Except PyErr (List Json)
  | [], urls => .ok urls
  | item :: rest, urls =>
    match pyGetD item ("urls".toList) (Json.obj []) with
    | .error e => .error e
    | .ok urlsObj =>
    match pyGet urlsObj ("regular".toList) with
    | .error e => .error e
    | .ok url => photo_urls rest (if jTruthy url then urls ++ [url] else urls)

/-- backend/app/main.py, `get_destination_photos` (lines 129-158). Note
that `per_page=3` is only a parameter of the outbound request (line
136): the adapter never truncates the result list it is given back. -/
def get_destination_photos (apiKey destino : Option Txt) (resp : RResp) :
    Except PyErr (List Json) :=
  if !(optTruthy apiKey) || !(optTruthy destino) then .ok [] else
  match resp with
  | .error _ => .ok []
  | .ok data =>
    match pyGetD data ("results".toList) (Json.arr []) with
    | .error e => .error e
    | .ok results =>
    match pyIterate results with
    | .error e => .error e
    | .ok items => photo_urls items []

/-- backend/app/main.py, `get_currency_code` (lines 161-180). The
country code is a value taken from an earlier JSON payload, so it may
have any shape; `if not country_code` is Python truthiness. -/
def get_currency_code (country_code : Json) (resp : RResp) :
    Except PyErr (Option Txt) :=
  if !(jTruthy country_code) then .ok none else
  match resp with
  | .error _ => .ok none
  | .ok data =>
    if !(jTruthy data) then .ok none else
    match pyIndex0 data with
    | .error e => .error e
    | .ok first =>
    match pyGet first ("currencies".toList) with
    | .error e => .error e
    | .ok currencies =>
    if !(jTruthy currencies) then .ok none else
    match pyFirstKey currencies with
    | .error e => .error e
    | .ok key => .ok (some key)

/-- backend/app/main.py, `get_exchange_rate` (lines 183-212).
`homeCurrencyEnv` models `os.getenv("HOME_CURRENCY")` (default
`"USD"`). The home-currency branch returns before the HTTP call, so the
result there does not depend on `resp`. -/
def get_exchange_rate (homeCurrencyEnv : Option Txt) (target : Option Txt)
    (resp : RResp) : Except PyErr (Option PanelSection) :=
  if !(optTruthy target) then .ok none else
  let base := pyUpper (homeCurrencyEnv.getD ("USD".toList))
  let tgt := pyUpper (optText target)
  if base = tgt then
    .ok (some ⟨"Tipo de cambio".toList, "Usas ".toList ++ base,
          some ("La moneda local coincide con tu moneda base.".toList)⟩)
  else
  match resp with
  | .error _ => .ok none
  | .ok data =>
    match pyGetD data ("rates".toList) (Json.obj []) with
    | .error e => .error e
    | .ok rates =>
    match pyGet rates tgt with
    | .error e => .error e
    | .ok rate =>
    match rate with
    | .null => .ok none
    | r =>
      match formatComma2Json r with
      | .error e => .error e
      | .ok rateTxt =>
        .ok (some ⟨"Tipo de cambio".toList,
              "1 ".toList ++ base ++ " ≈ ".toList ++ rateTxt ++ ' ' :: tgt,
              some ("Tasa en tiempo real cortesía de open.er-api.com".toList)⟩)

/-- Ambient time facts for `get_time_difference_info`: the configured
`HOME_TIMEZONE` value, whether `ZoneInfo` accepts it, the home zone's
current UTC offset in seconds, and the current UTC time of day in
seconds (feeding the `%H:%M` displays). -/
structure TimeEnv where
  tzEnvName : Option Txt
  tzValid : Bool
  homeOffsetSeconds : ℚ
  utcNowSec : ℕ

def pad2 (n : ℕ) : Txt := if n < 10 then '0' :: natToText n else natToText n

/-- `strftime("%H:%M")` of UTC-now shifted by `off` seconds. -/
def hhmm (totalSec : ℚ) : Txt :=
  let m := (Rat.floor (totalSec / 60)).emod 1440
  pad2 (m.toNat / 60) ++ ':' :: pad2 (m.toNat % 60)

/-- Body of `get_time_difference_info` once the offset is known to be a
number (lines 219-245). `timezone(timedelta(seconds=s))` raises
`ValueError` when `|s|` is a full day or more. -/
def timeDiffSection (env : TimeEnv) (offset_seconds : ℚ) :
    Except PyErr (Option PanelSection) :=
  if (86400 : ℚ) ≤ |offset_seconds| then .error .valueError else
  let tzName := if env.tzValid then env.tzEnvName.getD ("UTC".toList) else "UTC".toList
  let homeOff : ℚ := if env.tzValid then env.homeOffsetSeconds else 0
  let diffHours := (offset_seconds - homeOff) / 3600
  let sign := if (0 : ℚ) ≤ diffHours then '+' else '-'
  .ok (some ⟨"Diferencia horaria".toList,
        sign :: formatFixed 1 |diffHours| ++ " h".toList,
        some ("Destino ".toList ++ hhmm ((env.utcNowSec : ℚ) + offset_seconds) ++
              " · tu zona ".toList ++ hhmm ((env.utcNowSec : ℚ) + homeOff) ++
              " (".toList ++ tzName ++ ")".toList)⟩)

/-- backend/app/main.py, `get_time_difference_info` (lines 215-245). The
offset comes straight from a JSON payload: `None` short-circuits to an
absent section, numbers (and bools, which Python treats as ints) feed
`timedelta(seconds=...)`, any other shape makes `timedelta` raise. -/
def get_time_difference_info (env : TimeEnv) (offs : Json) :
    Except PyErr (Option PanelSection) :=
  match offs with
  | .null => .ok none
  | .num q => timeDiffSection env q
  | .bool b => timeDiffSection env (if b then 1 else 0)
  | _ => .error .typeError

/-- Python `". ".join(parts)`. -/
def joinDotSpace : List Txt → Txt
  | [] => []
  | [w] => w
  | w :: rest => w ++ '.' :: ' ' :: joinDotSpace rest

/-- backend/app/main.py, `format_weather_section` (lines 248-271). -/
def format_weather_section (weather_data : Option WeatherData) :
    Except PyErr (Option PanelSection) :=
  match weather_data with
  | none => .ok none
  | some wd =>
    let valueE : Except PyErr Txt :=
      match wd.temperature with
      | .null => .ok (pyOrText wd.summary ("N/D".toList))
      | t =>
        match formatFixed0Json t with
        | .error e => .error e
        | .ok s => .ok (s ++ " °C".toList)
    match valueE with
    | .error e => .error e
    | .ok value =>
    let parts1 : List Txt := if wd.summary = [] then [] else [wd.summary]
    let partsE : Except PyErr (List Txt) :=
      match wd.feels_like with
      | .null => .ok parts1
      | f =>
        match formatFixed0Json f with
        | .error e => .error e
        | .ok s => .ok (parts1 ++ ["Sensación ".toList ++ s ++ " °C".toList])
    match partsE with
    | .error e => .error e
    | .ok parts2 =>
    let parts3 :=
      match wd.humidity with
      | .null => parts2
      | h => parts2 ++ ["Humedad ".toList ++ pyToStr h ++ "%".toList]
    .ok (some ⟨"Temperatura actual".toList, value,
          if parts3 = [] then none else some (joinDotSpace parts3)⟩)

/-- Last `n` elements of a list: Python `l[-n:]`. -/
def lastN (n : ℕ) (l : List α) : List α := l.drop (l.length - n)

/-- The conversation-store append of `plan_trip` (lines 399-400):
append the new entry, keep only the last 10. -/
def store_append (history : List HistoryEntry) (e : HistoryEntry) :
    List HistoryEntry :=
  lastN 10 (history ++ [e])

/-- Destination derivation of `plan_trip` (lines 316-318): the extracted
marker value, else the previous entry's destination, else absent.
(`extract_destino` never returns `some ""`, so Python's truthiness test
coincides with `Option` matching.) -/
def plan_destino (pregunta : Txt) (history : List HistoryEntry) : Option Txt :=
  match extract_destino pregunta with
  | some d => some d
  | none =>
    match history.getLast? with
    | some e => e.destino
    | none => none

/-- The weather-bits f-string of the prompt construction (lines 355-368)
formats `weather_data["temperature"]` with `:.0f` when it is not `None`,
which raises on non-numeric payload values; the prompt text itself only
feeds the opaque model call and is not otherwise modelled. -/
def prompt_weather_check (weather_data : Option WeatherData)
    (destino : Option Txt) : Except PyErr Unit :=
  match weather_data, destino with
  | some wd, some d =>
    if d = [] then .ok () else
    match wd.temperature with
    | .null => .ok ()
    | t =>
      match formatFixed0Json t with
      | .error e => .error e
      | .ok _ => .ok ()
  | _, _ => .ok ()

def fallbackMsg : Txt :=
  "No recibimos una respuesta clara, intenta describir un poco más tu viaje.".toList

/-- Environment of one `/plan` request: configuration values and the
outcome of each outbound collaborator (providers and language model). -/
structure PlanEnv where
  geminiKey : Option Txt
  openweatherKey : Option Txt
  unsplashKey : Option Txt
  homeCurrency : Option Txt
  timeEnv : TimeEnv
  weatherResp : RResp
  photosResp : RResp
  currencyResp : RResp
  rateResp : RResp
  modelResult : Except Txt (Option Txt)
  timestamp : Txt

/-- The fields of `PlanResponse` (lines 70-75) produced by `plan_trip`. -/
structure PlanOutcome where
  respuesta : Txt
  fotos : List Json
  panel : PanelInfo
  history : List HistoryEntry
  favorites : List Txt
deriving Inhabited

/-- backend/app/main.py, `plan_trip` (lines 310-409), for one session:
`history` is `conversation_store.get(session_id, [])` and `favorites`
is `favorites_store.get(session_id, [])`. `modelResult`'s `.error`
models an exception from `model.generate_content` (mapped to a 502),
its `.ok` carries `completion.text`. -/
def plan_trip (env : PlanEnv) (pregunta : Txt) (history : List HistoryEntry)
    (favorites : List Txt) : Except PyErr PlanOutcome :=
  if !(optTruthy env.geminiKey) then
    .error (.httpException 500
      ("Falta la variable de entorno GEMINI_API_KEY o GOOGLE_API_KEY.".toList))
  else
  let destino := plan_destino pregunta history
  match get_weather_data env.openweatherKey destino env.weatherResp with
  | .error e => .error e
  | .ok weather_data =>
  match get_destination_photos env.unsplashKey destino env.photosResp with
  | .error e => .error e
  | .ok fotos =>
  let country_code := match weather_data with
    | some wd => wd.country
    | none => Json.null
  match get_currency_code country_code env.currencyResp with
  | .error e => .error e
  | .ok currency_code =>
  match get_exchange_rate env.homeCurrency currency_code env.rateResp with
  | .error e => .error e
  | .ok currency_section =>
  let timezone_offset := match weather_data with
    | some wd => wd.timezone_offset
    | none => Json.null
  match get_time_difference_info env.timeEnv timezone_offset with
  | .error e => .error e
  | .ok time_section =>
  match format_weather_section weather_data with
  | .error e => .error e
  | .ok weather_section =>
  match prompt_weather_check weather_data destino with
  | .error e => .error e
  | .ok _ =>
  match env.modelResult with
  | .error exc =>
    .error (.httpException 502
      ("No pudimos obtener la recomendación de Gemini: ".toList ++ exc))
  | .ok txt =>
  let stripped := pyStripWs (optText txt)
  let respuesta := if stripped = [] then fallbackMsg else stripped
  let entry : HistoryEntry := ⟨pregunta, some respuesta, destino, env.timestamp⟩
  .ok ⟨respuesta, fotos,
       ⟨currency_section, time_section, weather_section⟩,
       store_append history entry, favorites⟩

def LEADING : ℚ := mkRat 66 5

def MARGIN : ℚ := 80

/-- One drawing operation on a PDF page (the fixed x-coordinates of the
source are omitted; `y` is the vertical position). -/
inductive POp where
  | strAt (y : ℚ) (s : Txt)
  | rule
  | textLine (y : ℚ) (s : Txt)
  | image (idx : ℕ)
deriving DecidableEq

/-- A reportlab canvas: the finished pages and the operations drawn on
the current page so far. -/
structure Doc where
  pages : List (List POp)
  cur : List POp
deriving DecidableEq

def emitMany (ops : List POp) (d : Doc) : Doc := ⟨d.pages, d.cur ++ ops⟩

/-- `canvas.showPage()`: finalize the current page. -/
def docShowPage (d : Doc) : Doc := ⟨d.pages ++ [d.cur], []⟩

/-- `draw_header` (lines 461-466): title, subtitle and separator rule at
fixed positions (`height - 60 = 732`, `height - 80 = 712`). -/
def draw_header_ops : List POp :=
  [.strAt 732 ("ViajeIA".toList),
   .strAt 712 ("Alex, tu consultor personal de viajes".toList),
   .rule]

/-- Text-object lines produced for one history entry (lines 483-487):
the question line, the wrapped answer (when truthy) indented by two
spaces, then a blank separator line. -/
def entryLines (e : HistoryEntry) : List Txt :=
  ("• Pregunta: ".toList ++ e.pregunta) ::
    ((if optTruthy e.respuesta then
        (wrap_text (optText e.respuesta) 90).map (fun l => ' ' :: ' ' :: l)
      else []) ++ [[]])

/-- `textLine` draws at the cursor and moves it down by the leading
(`setFont("Helvetica", 11)` gives the default leading `13.2`). -/
def lineOps (y : ℚ) : List Txt → List POp
  | [] => []
  | s :: rest => .textLine y s :: lineOps (qSub y LEADING) rest

structure FlowSt where
  doc : Doc
  y : ℚ

/-- One iteration of the `for entry in history` loop (lines 482-497):
flush all of the entry's lines at the running cursor, then — only after
the whole entry — compare the cursor with the bottom margin and, when
below it, finalize the page and start a continuation page (header,
continuation title, cursor back to `792 - 120 - 16 = 656`). -/
def flowStep (st : FlowSt) (e : HistoryEntry) : FlowSt :=
  let ls := entryLines e
  let doc := emitMany (lineOps st.y ls) st.doc
  let y := qSub st.y (qMulNat LEADING ls.length)
  if y < MARGIN then
    ⟨emitMany (draw_header_ops ++
        [.strAt 672 ("Resumen de la conversación (cont.)".toList)])
      (docShowPage doc), 656⟩
  else ⟨doc, y⟩

/-- backend/app/main.py, `download_itinerary` (lines 442-516), drawing
portion: header + destination/dates block, the paginated text flow
(starting cursor `792 - 120 - 20 - 30 - 16 = 606`), and the optional
photo-gallery page. `photos` is the photo adapter's result and
`downloadOk i` says whether downloading the `i`-th image succeeds (a
failure is skipped by the `except: continue`). An empty history is
answered with a 404 before any drawing, modelled as the empty canvas. -/
def itineraryBaseDoc (latest : HistoryEntry) : Doc :=
  let destino := pyOrText
    (pyOrText (optText latest.destino) (optText (extract_destino latest.pregunta)))
    ("Destino no especificado".toList)
  let fechas := pyOrText
    (optText (extract_field latest.pregunta ("Fechas aproximadas".toList)))
    ("Fechas no definidas".toList)
  ⟨[], draw_header_ops ++
    [.strAt 672 ("Destino: ".toList ++ destino),
     .strAt 652 ("Fechas: ".toList ++ fechas),
     .strAt 622 ("Resumen de la conversación".toList)]⟩

/-- The text flow of `download_itinerary` (lines 480-498), starting from
the header/destination/dates block with the cursor at `606`. -/
def itineraryAfterFlow (history : List HistoryEntry) (latest : HistoryEntry) : FlowSt :=
  history.foldl flowStep ⟨itineraryBaseDoc latest, 606⟩

/-- The optional photo-gallery page (lines 500-513): a fresh page with
the header, the gallery title, and one image per successful download of
the first three photos. -/
def itineraryWithPhotos (d : Doc) (photos : List Json) (downloadOk : ℕ → Bool) : Doc :=
  if photos.isEmpty then d
  else
    emitMany (draw_header_ops ++
        ([POp.strAt 672 ("Inspiración visual".toList)] ++
          ((List.range (photos.take 3).length).filterMap
            (fun i => if downloadOk i then some (.image i) else none))))
      (docShowPage d)

def download_itinerary_doc (history : List HistoryEntry) (photos : List Json)
    (downloadOk : ℕ → Bool) : Doc :=
  match history.getLast? with
  | none => ⟨[], []⟩
  | some latest =>
    docShowPage
      (itineraryWithPhotos (itineraryAfterFlow history latest).doc photos downloadOk)

/- Concrete inputs used by witnesses and counterexamples. -/

def exEntry1 : HistoryEntry :=
  ⟨"q1".toList, some ("r1".toList), some ("Paris".toList), "t1".toList⟩

def exTimeEnv : TimeEnv := ⟨none, true, 0, 0⟩

def exEnv : PlanEnv :=
  ⟨some ("g".toList), none, none, none, exTimeEnv,
   .error (), .error (), .error (), .error (),
   .ok (some ("  hola  ".toList)), "2026-01-01T00:00:00Z".toList⟩

def exEnvBlank : PlanEnv :=
  ⟨some ("g".toList), none, none, none, exTimeEnv,
   .error (), .error (), .error (), .error (),
   .ok (some ("   ".toList)), "2026-01-01T00:00:00Z".toList⟩

def exOut : PlanOutcome :=
  match plan_trip exEnv ("Hola".toList) [exEntry1] [] with
  | .ok o => o
  | .error _ => default

def exOutBlank : PlanOutcome :=
  match plan_trip exEnvBlank ("Hola".toList) [exEntry1] [] with
  | .ok o => o
  | .error _ => default

def longWord : Txt := List.replicate 45 'a'

def longAnswer : Txt := joinSpace (List.replicate 40 longWord)

def exLongEntry : HistoryEntry := ⟨"q".toList, some longAnswer, none, "t".toList⟩

def opBelowMargin : POp → Bool
  | .textLine y _ => decide (y < MARGIN)
  | _ => false

def cexPhotoItem : Json :=
  Json.obj [("urls".toList, Json.obj [("regular".toList, Json.str ("u".toList))])]

def cexPhotosResp : RResp :=
  .ok (Json.obj [("results".toList,
        Json.arr [cexPhotoItem, cexPhotoItem, cexPhotoItem, cexPhotoItem])])

/- Lemmas and claim theorems. -/

lemma afterFirst_eq (marker : Txt) :
    ∀ t : Txt, afterFirst marker t
      = (firstIndexOf marker t).map (fun i => t.drop (i + marker.length)) := by
  intro t
  induction t with
  | nil =>
    by_cases h : marker = []
    · subst h; simp [afterFirst, firstIndexOf]
    · simp [afterFirst, firstIndexOf, h]
  | cons c cs ih =>
    by_cases h : isPre marker (c :: cs) = true
    · simp [afterFirst, firstIndexOf, h]
    · simp only [afterFirst, firstIndexOf, h, if_false, Bool.false_eq_true]
      rw [ih, Option.map_map]
      cases hI : firstIndexOf marker cs with
      | none => simp
      | some i =>
        simp [Function.comp]
        rw [Nat.add_right_comm, List.drop_succ_cons]

lemma takeWhile_bar_eq : ∀ s : Txt,
    s.takeWhile (fun c => !(c == '|'))
      = (match firstIndexOf ['|'] s with
         | some j => s.take j
         | none => s) := by
  intro s
  induction s with
  | nil => simp [firstIndexOf]
  | cons c cs ih =>
    by_cases h : c = '|'
    · subst h
      simp [List.takeWhile_cons, firstIndexOf, isPre]
    · have hpre : isPre ['|'] (c :: cs) = false := by
        simp [isPre]
        intro hcontra
        exact absurd hcontra.symm h
      have hc : (!(c == '|')) = true := by
        simp [h]
      rw [List.takeWhile_cons, hc]
      simp only [firstIndexOf, hpre, Bool.false_eq_true, if_false]
      rw [ih]
      cases hI : firstIndexOf ['|'] cs with
      | none => simp
      | some j => simp [List.take_succ_cons]

/-- Claim C1 (amended): for every input text and label, `extract_field`
returns the substring of the text between the first occurrence of
`"<label>:"` and the next `"|"` delimiter (or the end of the text),
trimmed of whitespace and then of leading and trailing periods; it
returns `none` when the marker does not occur or when the segment is
empty after trimming, and — being a total function — it never raises.
Stated as the equivalence of the source translation with the
independent index-and-slice reading of that contract. -/
theorem claim1_field_extractor :
    ∀ text label : Txt, extract_field text label = extract_field_sliced text label := by
  intro text label
  simp only [extract_field, extract_field_sliced, afterFirst_eq]
  cases hI : firstIndexOf (label ++ [':']) text with
  | none => simp
  | some i =>
    simp only [Option.map_some']
    rw [takeWhile_bar_eq]
    cases hJ : firstIndexOf ['|'] (text.drop (i + (label ++ [':']).length)) with
    | none =>
      simp [List.take_length]
    | some j =>
      simp only [List.drop_take, Nat.add_sub_cancel_left]

/-- Claim C1, counterexample to the wording as frozen: with text
`"Destino deseado: .Paris"` the segment after trimming whitespace is
`".Paris"`; trimming only *trailing* periods (the spec's words, embodied
by `extract_field_spec`) keeps the leading period, but the code's
`.strip(".")` removes it as well. -/
theorem claim1_cex :
    extract_field ("Destino deseado: .Paris".toList) ("Destino deseado".toList)
        ≠ extract_field_spec ("Destino deseado: .Paris".toList) ("Destino deseado".toList) ∧
    extract_field ("Destino deseado: .Paris".toList) ("Destino deseado".toList)
        = some ("Paris".toList) ∧
    extract_field_spec ("Destino deseado: .Paris".toList) ("Destino deseado".toList)
        = some (".Paris".toList) := by
  refine ⟨by decide, by rfl, by rfl⟩

/-- Claim C4: the panel composer emits a currency, time, or weather
section only when the corresponding upstream datum is present — an
absent weather payload yields an absent weather section, a `null`/absent
UTC offset yields an absent time section, and an absent (or empty)
target currency code yields an absent currency section; no placeholder
is fabricated. -/
theorem claim4_panel_omission :
    format_weather_section none = .ok none ∧
    (∀ env : TimeEnv, get_time_difference_info env Json.null = .ok none) ∧
    (∀ (hc : Option Txt) (r : RResp), get_exchange_rate hc none r = .ok none) ∧
    (∀ (hc : Option Txt) (r : RResp), get_exchange_rate hc (some []) r = .ok none) :=
  ⟨rfl, fun _ => rfl, fun _ _ => rfl, fun _ _ => rfl⟩

/-- Claim C3, counterexample: the weather adapter is *not* total in the
payload — `{"weather": []}` makes `data.get("weather", [{}])[0]` raise
`IndexError` (the `try` block only guards the HTTP call itself). -/
theorem claim3_cex :
    get_weather_data (some ("k".toList)) (some ("Paris".toList))
      (.ok (Json.obj [("weather".toList, Json.arr [])])) = .error .indexError := by
  rfl

/-- Claim C3 (amended): every adapter returns an absent/empty result on
a missing credential or key and on any request-level failure (network
failure, timeout, non-2xx status, unparsable body); totality does not
extend to arbitrary malformed payload shapes, where field access can
raise. -/
theorem claim3_adapters :
    ∀ (k d hc t : Option Txt) (c : Json) (r : RResp),
      get_weather_data k d (.error ()) = .ok none ∧
      get_weather_data none d r = .ok none ∧
      get_weather_data k none r = .ok none ∧
      get_destination_photos k d (.error ()) = .ok [] ∧
      get_destination_photos none d r = .ok [] ∧
      get_destination_photos k none r = .ok [] ∧
      get_currency_code c (.error ()) = .ok none ∧
      get_currency_code Json.null r = .ok none ∧
      get_exchange_rate hc none r = .ok none ∧
      (pyUpper (optText t) ≠ pyUpper (hc.getD ("USD".toList)) →
        get_exchange_rate hc t (.error ()) = .ok none) := by
  intro k d hc t c r
  refine ⟨?_, rfl, ?_, ?_, rfl, ?_, ?_, rfl, rfl, ?_⟩
  · unfold get_weather_data
    split
    · rfl
    · rfl
  · cases hk : optTruthy k <;> simp [get_weather_data, hk, optTruthy]
  · unfold get_destination_photos
    split
    · rfl
    · rfl
  · cases hk : optTruthy k <;> simp [get_destination_photos, hk, optTruthy]
  · unfold get_currency_code
    split
    · rfl
    · rfl
  · intro hne
    cases ht : optTruthy t
    · simp [get_exchange_rate, ht]
    · simp [get_exchange_rate, ht]
      exact fun h => hne h.symm

/-- Claim C3, witness: the home-currency-mismatch error branch of the
exchange-rate adapter degrades to an absent section. -/
theorem claim3_witness :
    get_exchange_rate none (some ("eur".toList)) (.error ()) = .ok none :=
  ((claim3_adapters (some ("k".toList)) (some ("d".toList)) none
      (some ("eur".toList)) Json.null (.ok Json.null)).2.2.2.2.2.2.2.2.2) (by decide)

/-- Claim C5: when the (upper-cased) target equals the configured home
currency code (default `"USD"`), the exchange-rate adapter returns the
fixed "using home currency" section, and the result does not depend on
the live-rate response (no call is observable); otherwise, when the
fetched rate table carries a numeric rate for the target, the returned
section's value is `"1 <HOME> ≈ <rate, 2 decimals, thousands-separated>
<TARGET>"`. -/
theorem claim5_exchange_rate :
    ∀ (hc : Option Txt) (t : Txt) (rts : List (Txt × Json)) (q : ℚ) (r r' : RResp),
      (t ≠ [] → pyUpper t = pyUpper (hc.getD ("USD".toList)) →
        get_exchange_rate hc (some t) r = .ok (some
          ⟨"Tipo de cambio".toList,
           "Usas ".toList ++ pyUpper (hc.getD ("USD".toList)),
           some ("La moneda local coincide con tu moneda base.".toList)⟩) ∧
        get_exchange_rate hc (some t) r = get_exchange_rate hc (some t) r') ∧
      (t ≠ [] → pyUpper t ≠ pyUpper (hc.getD ("USD".toList)) →
        jLookup rts (pyUpper t) = some (Json.num q) →
        get_exchange_rate hc (some t)
            (.ok (Json.obj [("rates".toList, Json.obj rts)])) = .ok (some
          ⟨"Tipo de cambio".toList,
           "1 ".toList ++ pyUpper (hc.getD ("USD".toList)) ++ " ≈ ".toList ++
             formatComma2 q ++ ' ' :: pyUpper t,
           some ("Tasa en tiempo real cortesía de open.er-api.com".toList)⟩)) := by
  intro hc t rts q r r'
  constructor
  · intro ht heq
    have h1 : ∀ rr : RResp, get_exchange_rate hc (some t) rr = .ok (some
        ⟨"Tipo de cambio".toList,
         "Usas ".toList ++ pyUpper (hc.getD ("USD".toList)),
         some ("La moneda local coincide con tu moneda base.".toList)⟩) := by
      intro rr
      have htr : optTruthy (some t) = true := by
        simp [optTruthy, List.isEmpty_iff, ht]
      have heq' : pyUpper (hc.getD (['U', 'S', 'D'] : Txt)) = pyUpper t := heq.symm
      simp [get_exchange_rate, htr, optText, heq']
    exact ⟨h1 r, (h1 r).trans (h1 r').symm⟩
  · intro ht hne hlook
    have htr : optTruthy (some t) = true := by
      simp [optTruthy, List.isEmpty_iff, ht]
    have hbt : ¬(pyUpper (hc.getD ("USD".toList)) = pyUpper t) :=
      fun h => hne h.symm
    simp [get_exchange_rate, htr, optText, hbt, pyGetD, pyGet, jLookup, hlook,
      formatComma2Json]
    exact fun h => hne h.symm

/-- Claim C5, witness: with no `HOME_CURRENCY` configured (home `"USD"`),
target `"usd"` yields the fixed home-currency message even when the rate
call would fail, and target `"eur"` with a live rate of `1234567.891`
formats as `"1 USD ≈ 1,234,567.89 EUR"`. -/
theorem claim5_witness :
    get_exchange_rate none (some ("usd".toList)) (.error ()) = .ok (some
      ⟨"Tipo de cambio".toList, "Usas USD".toList,
       some ("La moneda local coincide con tu moneda base.".toList)⟩) ∧
    get_exchange_rate none (some ("eur".toList))
        (.ok (Json.obj [("rates".toList,
          Json.obj [("EUR".toList, Json.num (mkRat 1234567891 1000))])]))
      = .ok (some
      ⟨"Tipo de cambio".toList, "1 USD ≈ 1,234,567.89 EUR".toList,
       some ("Tasa en tiempo real cortesía de open.er-api.com".toList)⟩) := by
  constructor
  · have h := ((claim5_exchange_rate none ("usd".toList) [] 0 (.error ()) (.error ())).1
      (by decide) (by decide)).1
    have hv : ("Usas ".toList ++ pyUpper ((none : Option Txt).getD ("USD".toList)))
        = "Usas USD".toList := by decide
    rw [h, hv]
  · have h := (claim5_exchange_rate none ("eur".toList)
      [("EUR".toList, Json.num (mkRat 1234567891 1000))] (mkRat 1234567891 1000)
      (.ok (Json.obj [("rates".toList,
        Json.obj [("EUR".toList, Json.num (mkRat 1234567891 1000))])])) (.error ())).2
      (by decide) (by decide) (by rfl)
    have hv : ("1 ".toList ++ pyUpper ((none : Option Txt).getD ("USD".toList)) ++
          " ≈ ".toList ++ formatComma2 (mkRat 1234567891 1000) ++
          ' ' :: pyUpper ("eur".toList))
        = "1 USD ≈ 1,234,567.89 EUR".toList := by decide
    rw [h, hv]

lemma qSub_eq (a b : ℚ) : qSub a b = a - b := by
  have ha : ((a.den : ℚ)) ≠ 0 := by exact_mod_cast a.den_ne_zero
  have hb : ((b.den : ℚ)) ≠ 0 := by exact_mod_cast b.den_ne_zero
  rw [qSub, Rat.mkRat_eq_div]
  push_cast
  conv_rhs => rw [← Rat.num_div_den a, ← Rat.num_div_den b]
  rw [div_sub_div _ _ ha hb]
  congr 1
  ring

lemma qMulNat_eq (a : ℚ) (n : ℕ) : qMulNat a n = a * n := by
  have ha : ((a.den : ℚ)) ≠ 0 := by exact_mod_cast a.den_ne_zero
  rw [qMulNat, Rat.mkRat_eq_div]
  push_cast
  conv_rhs => rw [← Rat.num_div_den a]
  rw [div_mul_eq_mul_div]

lemma qAbs_eq (q : ℚ) : qAbs q = |q| := by
  rw [qAbs, Rat.mkRat_eq_div]
  conv_rhs => rw [← Rat.num_div_den q]
  rw [abs_div, Int.cast_natAbs, abs_of_nonneg (a := ((q.den : ℚ))) (Nat.cast_nonneg q.den)]
  push_cast
  rfl

lemma photo_urls_length : ∀ (items acc out : List Json),
    photo_urls items acc = .ok out → out.length ≤ acc.length + items.length := by
  intro items
  induction items with
  | nil =>
    intro acc out h
    simp only [photo_urls] at h
    cases h
    simp
  | cons item rest ih =>
    intro acc out h
    simp only [photo_urls] at h
    cases hg : pyGetD item ("urls".toList) (Json.obj []) with
    | error e => rw [hg] at h; exact absurd h (by simp)
    | ok urlsObj =>
      rw [hg] at h
      dsimp only at h
      cases hu : pyGet urlsObj ("regular".toList) with
      | error e => rw [hu] at h; exact absurd h (by simp)
      | ok url =>
        rw [hu] at h
        dsimp only at h
        have := ih _ _ h
        by_cases ht : jTruthy url = true
        · rw [if_pos ht] at this
          simp at this
          simp [List.length_cons]
          omega
        · rw [if_neg ht] at this
          simp [List.length_cons]
          omega

/-- Claim C8, counterexample: `per_page=3` is only a request parameter;
a response carrying four result items yields four URLs, so the adapter
does not guarantee at most 3 for every provider response. -/
theorem claim8_cex :
    get_destination_photos (some ("k".toList)) (some ("d".toList)) cexPhotosResp
        = .ok (List.replicate 4 (Json.str ("u".toList))) ∧
    (List.replicate 4 (Json.str ("u".toList))).length = 4 := by
  exact ⟨by rfl, by rfl⟩

/-- Claim C8 (amended): the photos adapter returns the empty sequence
when the credential is missing, when the place name is absent, or when
the call fails; for a response whose `results` is a list it returns one
URL per item bearing a truthy `urls.regular`, hence never more URLs
than the response has result items — but it applies no cap of 3 itself
(the 3 is only the requested page size). -/
theorem claim8_photos :
    ∀ (k d : Option Txt) (r : RResp) (items out : List Json),
      get_destination_photos none d r = .ok [] ∧
      get_destination_photos k none r = .ok [] ∧
      get_destination_photos k d (.error ()) = .ok [] ∧
      (get_destination_photos k d
          (.ok (Json.obj [("results".toList, Json.arr items)])) = .ok out →
        out.length ≤ items.length) := by
  intro k d r items out
  refine ⟨rfl, ?_, ?_, ?_⟩
  · cases hk : optTruthy k <;> simp [get_destination_photos, hk, optTruthy]
  · unfold get_destination_photos
    split
    · rfl
    · rfl
  · intro h
    unfold get_destination_photos at h
    split at h
    · cases h
      simp
    · simp only [pyGetD, jLookup, if_pos rfl, Option.getD_some, pyIterate] at h
      simpa using photo_urls_length items [] out h

/-- Claim C8, witness: a response with one well-formed result item
yields one URL, within the bound of the amended claim. -/
theorem claim8_witness :
    ([Json.str ("u".toList)] : List Json).length ≤ ([cexPhotoItem] : List Json).length :=
  (claim8_photos (some ("k".toList)) (some ("d".toList)) (.error ()) [cexPhotoItem]
    [Json.str ("u".toList)]).2.2.2 (by rfl)

lemma lastN_of_le {α : Type _} {n : ℕ} {l : List α} (h : l.length ≤ n) :
    lastN n l = l := by
  simp [lastN, Nat.sub_eq_zero_of_le h]

lemma lastN_length_le {α : Type _} (n : ℕ) (l : List α) : (lastN n l).length ≤ n := by
  simp only [lastN, List.length_drop]
  omega

lemma lastN_cons_of_le {α : Type _} {n : ℕ} {x : α} {l : List α} (h : n ≤ l.length) :
    lastN n (x :: l) = lastN n l := by
  simp only [lastN, List.length_cons]
  have he : l.length + 1 - n = (l.length - n) + 1 := by omega
  rw [he, List.drop_succ_cons]

lemma lastN_append_lastN {α : Type _} (n : ℕ) : ∀ (xs ys : List α),
    lastN n (lastN n xs ++ ys) = lastN n (xs ++ ys) := by
  intro xs
  induction xs with
  | nil => intro ys; simp [lastN]
  | cons x xs ih =>
    intro ys
    by_cases h : (x :: xs).length ≤ n
    · rw [lastN_of_le h]
    · have h1 : n ≤ xs.length := by simp at h; omega
      have h2 : n ≤ (xs ++ ys).length := by simp; omega
      rw [lastN_cons_of_le h1, ih, List.cons_append, lastN_cons_of_le h2]

lemma store_append_foldl : ∀ (es acc : List HistoryEntry), acc.length ≤ 10 →
    es.foldl store_append acc = lastN 10 (acc ++ es) := by
  intro es
  induction es with
  | nil =>
    intro acc h
    simp [List.foldl_nil, lastN_of_le h]
  | cons e es ih =>
    intro acc h
    rw [List.foldl_cons, ih (store_append acc e) (lastN_length_le 10 _)]
    unfold store_append
    rw [lastN_append_lastN]
    simp [List.append_assoc]

lemma store_append_getLast (h : List HistoryEntry) (e : HistoryEntry) :
    (store_append h e).getLast? = some e := by
  unfold store_append lastN
  have hk : (h ++ [e]).length - 10 ≤ h.length := by
    simp only [List.length_append, List.length_singleton]
    omega
  rw [List.drop_append_of_le_length hk, List.getLast?_concat]

lemma plan_destino_no_marker {p : Txt} (h : List HistoryEntry)
    (hm : afterFirst ("Destino deseado".toList ++ [':']) p = none) :
    plan_destino p h = (match h.getLast? with
      | some e => e.destino
      | none => none) := by
  simp only [plan_destino, extract_destino, extract_field, hm]

lemma plan_trip_inv {env : PlanEnv} {p : Txt} {h : List HistoryEntry}
    {f : List Txt} {o : PlanOutcome} (hp : plan_trip env p h f = .ok o) :
    ∃ (txt : Option Txt) (wd : Option WeatherData),
      env.modelResult = .ok txt ∧
      get_weather_data env.openweatherKey (plan_destino p h) env.weatherResp = .ok wd ∧
      get_destination_photos env.unsplashKey (plan_destino p h) env.photosResp
        = .ok o.fotos ∧
      o.respuesta = (if pyStripWs (optText txt) = [] then fallbackMsg
                     else pyStripWs (optText txt)) ∧
      o.history = store_append h ⟨p, some o.respuesta, plan_destino p h, env.timestamp⟩ ∧
      o.favorites = f := by
  simp only [plan_trip] at hp
  by_cases hg : (!(optTruthy env.geminiKey)) = true
  · rw [if_pos hg] at hp
    exact absurd hp (by simp)
  rw [if_neg hg] at hp
  cases hw : get_weather_data env.openweatherKey (plan_destino p h) env.weatherResp with
  | error e => rw [hw] at hp; exact absurd hp (by simp)
  | ok wd =>
  rw [hw] at hp
  dsimp only at hp
  cases hf : get_destination_photos env.unsplashKey (plan_destino p h) env.photosResp with
  | error e => rw [hf] at hp; exact absurd hp (by simp)
  | ok fotos =>
  rw [hf] at hp
  dsimp only at hp
  generalize hcty : (match wd with | some w => w.country | none => Json.null)
      = country_code at hp
  cases hc : get_currency_code country_code env.currencyResp with
  | error e => rw [hc] at hp; exact absurd hp (by simp)
  | ok currency_code =>
  rw [hc] at hp
  dsimp only at hp
  cases hx : get_exchange_rate env.homeCurrency currency_code env.rateResp with
  | error e => rw [hx] at hp; exact absurd hp (by simp)
  | ok currency_section =>
  rw [hx] at hp
  dsimp only at hp
  generalize htz : (match wd with | some w => w.timezone_offset | none => Json.null)
      = tzoff at hp
  cases htd : get_time_difference_info env.timeEnv tzoff with
  | error e => rw [htd] at hp; exact absurd hp (by simp)
  | ok time_section =>
  rw [htd] at hp
  dsimp only at hp
  cases hws : format_weather_section wd with
  | error e => rw [hws] at hp; exact absurd hp (by simp)
  | ok weather_section =>
  rw [hws] at hp
  dsimp only at hp
  cases hpc : prompt_weather_check wd (plan_destino p h) with
  | error e => rw [hpc] at hp; exact absurd hp (by simp)
  | ok u =>
  rw [hpc] at hp
  dsimp only at hp
  cases hmr : env.modelResult with
  | error msg => rw [hmr] at hp; exact absurd hp (by simp)
  | ok txt =>
  rw [hmr] at hp
  dsimp only at hp
  have ho := Except.ok.inj hp
  subst ho
  exact ⟨txt, wd, rfl, rfl, rfl, rfl, rfl, rfl⟩

/-- Claim C2: the per-session conversation history never exceeds 10
entries no matter how many appends happen (a fold of the store-append
over any sequence of entries keeps exactly the last 10, in order —
oldest evicted first), and every successful `/plan` request leaves the
stored history at 10 entries or fewer. -/
theorem claim2_history_bound :
    (∀ es : List HistoryEntry,
        (es.foldl store_append []).length ≤ 10 ∧
        es.foldl store_append [] = es.drop (es.length - 10)) ∧
    (∀ (env : PlanEnv) (p : Txt) (h : List HistoryEntry) (f : List Txt)
        (o : PlanOutcome), plan_trip env p h f = .ok o → o.history.length ≤ 10) := by
  constructor
  · intro es
    have h0 : ([] : List HistoryEntry).length ≤ 10 := by simp
    have hfold := store_append_foldl es [] h0
    rw [List.nil_append] at hfold
    exact ⟨by rw [hfold]; exact lastN_length_le 10 es, hfold⟩
  · intro env p h f o hp
    obtain ⟨txt, wd, -, -, -, -, hhist, -⟩ := plan_trip_inv hp
    rw [hhist]
    exact lastN_length_le 10 _

/-- Claim C2, witness: fifteen appends to one session keep 10 entries,
and a successful concrete `/plan` call leaves at most 10 entries. -/
theorem claim2_witness :
    ((List.replicate 15 exEntry1).foldl store_append []).length ≤ 10 ∧
    exOut.history.length ≤ 10 :=
  ⟨(claim2_history_bound.1 (List.replicate 15 exEntry1)).1,
   claim2_history_bound.2 exEnv ("Hola".toList) [exEntry1] [] exOut (by rfl)⟩

/-- Claim C9: when the question text contains no `"Destino deseado:"`
marker and the plan request succeeds, the destination recorded in the
new history entry — and the one handed to the provider lookups — is
the destination of the most recent history entry (which may itself be
absent); with an empty history the recorded destination is absent. -/
theorem claim9_destination_carryover :
    ∀ (env : PlanEnv) (p : Txt) (h : List HistoryEntry) (f : List Txt)
      (o : PlanOutcome),
      afterFirst ("Destino deseado".toList ++ [':']) p = none →
      plan_trip env p h f = .ok o →
      (∀ e₀, h.getLast? = some e₀ →
          (∃ e, o.history.getLast? = some e ∧ e.destino = e₀.destino) ∧
          get_destination_photos env.unsplashKey e₀.destino env.photosResp
            = .ok o.fotos ∧
          (∃ wd, get_weather_data env.openweatherKey e₀.destino env.weatherResp
            = .ok wd)) ∧
      (h = [] → ∃ e, o.history.getLast? = some e ∧ e.destino = none) := by
  intro env p h f o hm hp
  obtain ⟨txt, wd, hmod, hw, hf, hresp, hhist, hfav⟩ := plan_trip_inv hp
  have hd := plan_destino_no_marker h hm
  constructor
  · intro e₀ hlast
    have hd0 : plan_destino p h = e₀.destino := by rw [hd, hlast]
    rw [hd0] at hw hf
    refine ⟨⟨⟨p, some o.respuesta, plan_destino p h, env.timestamp⟩, ?_, ?_⟩,
      hf, wd, hw⟩
    · rw [hhist]; exact store_append_getLast ..
    · exact hd0
  · intro h0
    subst h0
    have hd0 : plan_destino p [] = none := by rw [hd]; rfl
    refine ⟨⟨p, some o.respuesta, plan_destino p [], env.timestamp⟩, ?_, hd0⟩
    rw [hhist]; exact store_append_getLast ..

/-- Claim C9, witness: question `"Hola"` carries no marker; the
destination of the latest stored entry (`"Paris"`) is recorded in the
appended entry of the concrete successful request. -/
theorem claim9_witness :
    ∃ e, exOut.history.getLast? = some e ∧ e.destino = exEntry1.destino :=
  ((claim9_destination_carryover exEnv ("Hola".toList) [exEntry1] [] exOut
      (by rfl) (by rfl)).1 exEntry1 (by rfl)).1

/-- Claim C10: a successful `/plan` request always produces a non-empty
`respuesta`; if the model's text strips to empty, the fixed fallback
message is substituted; and the stored history entry carries exactly
the returned answer. -/
theorem claim10_respuesta_nonempty :
    ∀ (env : PlanEnv) (p : Txt) (h : List HistoryEntry) (f : List Txt)
      (o : PlanOutcome), plan_trip env p h f = .ok o →
      o.respuesta ≠ [] ∧
      (∀ txt, env.modelResult = .ok txt → pyStripWs (optText txt) = [] →
          o.respuesta = fallbackMsg) ∧
      (∃ e, o.history.getLast? = some e ∧ e.respuesta = some o.respuesta) := by
  intro env p h f o hp
  obtain ⟨txt, wd, hmod, hw, hf, hresp, hhist, hfav⟩ := plan_trip_inv hp
  refine ⟨?_, ?_, ⟨p, some o.respuesta, plan_destino p h, env.timestamp⟩, ?_, rfl⟩
  · rw [hresp]
    by_cases hs : pyStripWs (optText txt) = []
    · rw [if_pos hs]
      decide
    · rw [if_neg hs]
      exact hs
  · intro txt' hmod' hstrip
    rw [hmod] at hmod'
    have ht : txt' = txt := (Except.ok.inj hmod').symm
    subst ht
    rw [hresp, if_pos hstrip]
  · rw [hhist]; exact store_append_getLast ..

/-- Claim C10, witness: a whitespace-only model answer is replaced by
the fixed fallback message, which is non-empty. -/
theorem claim10_witness :
    exOutBlank.respuesta = fallbackMsg ∧ exOutBlank.respuesta ≠ [] := by
  have H := claim10_respuesta_nonempty exEnvBlank ("Hola".toList) [exEntry1] []
    exOutBlank (by rfl)
  exact ⟨H.2.1 (some ("   ".toList)) (by rfl) (by rfl), H.1⟩

lemma flowStep_y_ge (st : FlowSt) (e : HistoryEntry) : MARGIN ≤ (flowStep st e).y := by
  unfold flowStep
  dsimp only
  split
  · show MARGIN ≤ (656 : ℚ)
    decide
  · rename_i hy
    exact le_of_not_lt hy

lemma flow_foldl_y (es : List HistoryEntry) : ∀ st : FlowSt, MARGIN ≤ st.y →
    MARGIN ≤ (es.foldl flowStep st).y := by
  induction es with
  | nil => intro st h; exact h
  | cons e es ih =>
    intro st h
    rw [List.foldl_cons]
    exact ih _ (flowStep_y_ge st e)

lemma headered_showPage (d : Doc)
    (h1 : ∀ pg ∈ d.pages, ∃ r, pg = draw_header_ops ++ r)
    (h2 : ∃ r, d.cur = draw_header_ops ++ r) :
    ∀ pg ∈ (docShowPage d).pages, ∃ r, pg = draw_header_ops ++ r := by
  intro pg hpg
  rcases List.mem_append.1 hpg with hm | hm
  · exact h1 pg hm
  · obtain ⟨r, hr⟩ := h2
    have hc : pg = d.cur := by simpa using hm
    exact ⟨r, by rw [hc, hr]⟩

lemma flowStep_headered (st : FlowSt) (e : HistoryEntry)
    (h1 : ∀ pg ∈ st.doc.pages, ∃ r, pg = draw_header_ops ++ r)
    (h2 : ∃ r, st.doc.cur = draw_header_ops ++ r) :
    (∀ pg ∈ (flowStep st e).doc.pages, ∃ r, pg = draw_header_ops ++ r) ∧
    (∃ r, (flowStep st e).doc.cur = draw_header_ops ++ r) := by
  obtain ⟨r0, hr0⟩ := h2
  unfold flowStep emitMany docShowPage
  dsimp only
  split
  · refine ⟨?_, ⟨[.strAt 672 ("Resumen de la conversación (cont.)".toList)], by simp⟩⟩
    intro pg hpg
    rcases List.mem_append.1 hpg with hm | hm
    · exact h1 pg hm
    · have hc : pg = st.doc.cur ++ lineOps st.y (entryLines e) := by simpa using hm
      exact ⟨r0 ++ lineOps st.y (entryLines e), by rw [hc, hr0, List.append_assoc]⟩
  · exact ⟨h1, ⟨r0 ++ lineOps st.y (entryLines e), by rw [hr0, List.append_assoc]⟩⟩

lemma flow_foldl_headered : ∀ (es : List HistoryEntry) (st : FlowSt),
    (∀ pg ∈ st.doc.pages, ∃ r, pg = draw_header_ops ++ r) →
    (∃ r, st.doc.cur = draw_header_ops ++ r) →
    (∀ pg ∈ (es.foldl flowStep st).doc.pages, ∃ r, pg = draw_header_ops ++ r) ∧
    (∃ r, (es.foldl flowStep st).doc.cur = draw_header_ops ++ r) := by
  intro es
  induction es with
  | nil => intro st h1 h2; exact ⟨h1, h2⟩
  | cons e es ih =>
    intro st h1 h2
    rw [List.foldl_cons]
    obtain ⟨g1, g2⟩ := flowStep_headered st e h1 h2
    exact ih _ g1 g2

/-- Claim C6 (amended): the itinerary text flow checks the cursor only
after flushing a whole history entry; when the cursor then lies below
the bottom margin the page is finalized and a continuation page starts
with the header block and continuation title, so every entry starts at
a cursor position at or above the margin (individual lines of one long
entry can still land below it — see the counterexample), and the header
block is the identical prefix of every page of the document. -/
theorem claim6_pagination :
    ∀ (history : List HistoryEntry) (photos : List Json) (dl : ℕ → Bool),
      (∀ pg ∈ (download_itinerary_doc history photos dl).pages,
          ∃ rest, pg = draw_header_ops ++ rest) ∧
      (∀ (st : FlowSt) (es : List HistoryEntry), MARGIN ≤ st.y →
          MARGIN ≤ (es.foldl flowStep st).y) := by
  intro history photos dl
  constructor
  · intro pg hpg
    unfold download_itinerary_doc at hpg
    cases hl : history.getLast? with
    | none =>
      rw [hl] at hpg
      simp at hpg
    | some latest =>
      rw [hl] at hpg
      dsimp only at hpg
      have hbase1 : ∀ q ∈ (itineraryBaseDoc latest).pages,
          ∃ r, q = draw_header_ops ++ r := by
        intro q hq
        simp [itineraryBaseDoc] at hq
      have hbase2 : ∃ r, (itineraryBaseDoc latest).cur = draw_header_ops ++ r :=
        ⟨_, rfl⟩
      obtain ⟨hf1, hf2⟩ := flow_foldl_headered history
        ⟨itineraryBaseDoc latest, 606⟩ hbase1 hbase2
      have hw1 : ∀ q ∈ (itineraryWithPhotos
            (itineraryAfterFlow history latest).doc photos dl).pages,
          ∃ r, q = draw_header_ops ++ r := by
        unfold itineraryWithPhotos
        split
        · exact fun q hq => hf1 q hq
        · exact fun q hq => headered_showPage _ hf1 hf2 q hq
      have hw2 : ∃ r, (itineraryWithPhotos
            (itineraryAfterFlow history latest).doc photos dl).cur
          = draw_header_ops ++ r := by
        unfold itineraryWithPhotos
        split
        · exact hf2
        · refine ⟨[POp.strAt 672 ("Inspiración visual".toList)] ++
            ((List.range (photos.take 3).length).filterMap
              (fun i => if dl i then some (POp.image i) else none)), ?_⟩
          simp [emitMany, docShowPage]
      exact headered_showPage _ hw1 hw2 pg hpg
  · intro st es hy
    exact flow_foldl_y es st hy

set_option maxRecDepth 8000 in
set_option maxHeartbeats 1000000 in
/-- Claim C6, counterexample to the wording as frozen: a single entry
whose answer wraps to 40 lines flushes every line before the margin
check runs, so text lines are drawn below the bottom margin (y = 80). -/
theorem claim6_cex :
    ((download_itinerary_doc [exLongEntry] [] (fun _ => false)).pages.flatten.any
        opBelowMargin) = true := by
  rfl

/-- Claim C6, witness: the single page of a short one-entry document
starts with the header block, and an empty flow keeps the cursor at its
starting position above the margin. -/
theorem claim6_witness :
    (∃ rest, ((download_itinerary_doc [exEntry1] [] (fun _ => false)).pages.getD 0 [])
        = draw_header_ops ++ rest) ∧
    MARGIN ≤ (([] : List HistoryEntry).foldl flowStep ⟨⟨[], []⟩, 606⟩).y := by
  constructor
  · exact (claim6_pagination [exEntry1] [] (fun _ => false)).1 _ (by decide)
  · exact (claim6_pagination [] [] (fun _ => false)).2 ⟨⟨[], []⟩, 606⟩ [] (by decide)

lemma pySplitAux_words : ∀ (t acc : Txt), (∀ c ∈ acc, isWs c = false) →
    ∀ w ∈ pySplitAux t acc, w ≠ [] ∧ ∀ c ∈ w, isWs c = false := by
  intro t
  induction t with
  | nil =>
    intro acc hacc w hw
    by_cases ha : acc = []
    · simp [pySplitAux, ha] at hw
    · simp only [pySplitAux, ha, if_false] at hw
      have hw' : w = acc.reverse := by simpa using hw
      subst hw'
      refine ⟨by simpa using ha, ?_⟩
      intro c hc
      exact hacc c (List.mem_reverse.1 hc)
  | cons c cs ih =>
    intro acc hacc w hw
    simp only [pySplitAux] at hw
    by_cases hc : isWs c = true
    · rw [if_pos hc] at hw
      by_cases ha : acc = []
      · rw [if_pos ha] at hw
        exact ih [] (by simp) w hw
      · rw [if_neg ha] at hw
        rcases List.mem_cons.1 hw with hm | hm
        · subst hm
          refine ⟨by simpa using ha, ?_⟩
          intro x hx
          exact hacc x (List.mem_reverse.1 hx)
        · exact ih [] (by simp) w hm
    · rw [if_neg hc] at hw
      refine ih (c :: acc) ?_ w hw
      intro x hx
      rcases List.mem_cons.1 hx with hm | hm
      · subst hm
        simpa using hc
      · exact hacc x hm

lemma pySplitAux_append : ∀ (w : Txt), (∀ c ∈ w, isWs c = false) →
    ∀ (t acc : Txt), pySplitAux (w ++ t) acc = pySplitAux t (w.reverse ++ acc) := by
  intro w
  induction w with
  | nil => intro _ t acc; simp
  | cons c w' ih =>
    intro hfree t acc
    have hc : isWs c = false := hfree c (by simp)
    rw [List.cons_append]
    simp only [pySplitAux, hc, Bool.false_eq_true, if_false]
    rw [ih (fun x hx => hfree x (by simp [hx])) t (c :: acc)]
    simp [List.append_assoc]

lemma pySplit_word (w : Txt) (hne : w ≠ []) (hfree : ∀ c ∈ w, isWs c = false) :
    pySplit w = [w] := by
  unfold pySplit
  have h := pySplitAux_append w hfree [] []
  rw [List.append_nil] at h
  rw [h]
  simp only [pySplitAux, List.append_nil]
  rw [if_neg (by simpa using hne)]
  simp

lemma pySplit_joinSpace : ∀ gs : List Txt,
    (∀ w ∈ gs, w ≠ [] ∧ ∀ c ∈ w, isWs c = false) →
    pySplit (joinSpace gs) = gs := by
  intro gs
  induction gs with
  | nil => simp [joinSpace, pySplit, pySplitAux]
  | cons w rest ih =>
    intro hgs
    obtain ⟨hwne, hwfree⟩ := hgs w (by simp)
    cases rest with
    | nil =>
      show pySplit (joinSpace [w]) = [w]
      rw [show joinSpace [w] = w from rfl]
      exact pySplit_word w hwne hwfree
    | cons v rest' =>
      show pySplit (w ++ ' ' :: joinSpace (v :: rest')) = w :: v :: rest'
      unfold pySplit
      rw [pySplitAux_append w hwfree]
      simp only [List.append_nil, pySplitAux, isWs]
      rw [if_pos (by simp), if_neg (by simpa using hwne)]
      rw [List.reverse_reverse]
      have := ih (fun u hu => hgs u (by simp [hu]))
      unfold pySplit at this
      rw [this]

lemma joinSpace_concat : ∀ (cur : List Txt) (w : Txt),
    joinSpace (cur ++ [w]) = if cur = [] then w else joinSpace cur ++ ' ' :: w := by
  intro cur
  induction cur with
  | nil => intro w; simp [joinSpace]
  | cons x rest ih =>
    intro w
    cases rest with
    | nil => simp [joinSpace]
    | cons y rest' =>
      show x ++ ' ' :: joinSpace ((y :: rest') ++ [w]) = _
      rw [ih w, if_neg (by simp), if_neg (by simp)]
      show x ++ ' ' :: (joinSpace (y :: rest') ++ ' ' :: w)
        = (x ++ ' ' :: joinSpace (y :: rest')) ++ ' ' :: w
      simp [List.append_assoc]

lemma joinSpace_ne_nil : ∀ cur : List Txt, (∀ u ∈ cur, u ≠ []) → cur ≠ [] →
    joinSpace cur ≠ [] := by
  intro cur h hne
  cases cur with
  | nil => exact absurd rfl hne
  | cons w rest =>
    cases rest with
    | nil => exact h w (by simp)
    | cons v rest' =>
      show w ++ ' ' :: joinSpace (v :: rest') ≠ []
      simp

lemma wrapFold_spec : ∀ (ws : List Txt) (gs : List (List Txt)) (cur : List Txt),
    (∀ w ∈ ws, w ≠ [] ∧ ∀ c ∈ w, isWs c = false) →
    (∀ w ∈ cur, w ≠ [] ∧ ∀ c ∈ w, isWs c = false) →
    (∀ g ∈ gs, ∀ w ∈ g, w ≠ [] ∧ ∀ c ∈ w, isWs c = false) →
    ∃ (gs' : List (List Txt)) (cur' : List Txt),
      ws.foldl (wrapStep 90) (gs.map joinSpace, cur, (joinSpace cur).length)
        = (gs'.map joinSpace, cur', (joinSpace cur').length) ∧
      gs'.flatten ++ cur' = gs.flatten ++ cur ++ ws ∧
      (∀ g ∈ gs', ∀ w ∈ g, w ≠ [] ∧ ∀ c ∈ w, isWs c = false) ∧
      (∀ w ∈ cur', w ≠ [] ∧ ∀ c ∈ w, isWs c = false) ∧
      ((ws ≠ [] ∨ cur ≠ []) → cur' ≠ []) := by
  intro ws
  induction ws with
  | nil =>
    intro gs cur hws hcur hgs
    refine ⟨gs, cur, rfl, by simp, hgs, hcur, ?_⟩
    rintro (h | h)
    · exact absurd rfl h
    · exact h
  | cons w ws' ih =>
    intro gs cur hws hcur hgs
    obtain ⟨hwne, hwfree⟩ := hws w (by simp)
    rw [List.foldl_cons]
    by_cases hover :
        (joinSpace cur).length + w.length + (if cur = [] then 0 else 1) > 90
    · have hstep : wrapStep 90 (gs.map joinSpace, cur, (joinSpace cur).length) w
          = ((gs ++ [cur]).map joinSpace, [w], (joinSpace [w]).length) := by
        simp only [wrapStep]
        rw [if_pos hover]
        simp [List.map_append, joinSpace]
      rw [hstep]
      obtain ⟨gs', cur', hfold, hjoin, hgs', hcur', hne'⟩ :=
        ih (gs ++ [cur]) [w] (fun u hu => hws u (by simp [hu]))
          (by
            intro u hu
            have hu' : u = w := by simpa using hu
            subst hu'
            exact ⟨hwne, hwfree⟩)
          (by
            intro g hg
            rcases List.mem_append.1 hg with hmem | hmem
            · exact hgs g hmem
            · have hg' : g = cur := by simpa using hmem
              subst hg'
              exact hcur)
      refine ⟨gs', cur', hfold, ?_, hgs', hcur', ?_⟩
      · rw [hjoin]
        simp [List.flatten_append, List.append_assoc]
      · intro _
        exact hne' (Or.inr (by simp))
    · have hlen : (joinSpace cur).length + w.length
          + (if (joinSpace cur).length = 0 then 0 else 1)
          = (joinSpace (cur ++ [w])).length := by
        rw [joinSpace_concat]
        by_cases hc : cur = []
        · subst hc; simp [joinSpace]
        · have hj : joinSpace cur ≠ [] :=
            joinSpace_ne_nil cur (fun u hu => (hcur u hu).1) hc
          rw [if_neg hc, if_neg (by simpa using hj)]
          simp only [List.length_append, List.length_cons]
          omega
      have hstep : wrapStep 90 (gs.map joinSpace, cur, (joinSpace cur).length) w
          = (gs.map joinSpace, cur ++ [w], (joinSpace (cur ++ [w])).length) := by
        simp only [wrapStep]
        rw [if_neg hover, hlen]
      rw [hstep]
      obtain ⟨gs', cur', hfold, hjoin, hgs', hcur', hne'⟩ :=
        ih gs (cur ++ [w])
          (fun u hu => hws u (by simp [hu]))
          (by
            intro u hu
            rcases List.mem_append.1 hu with hmem | hmem
            · exact hcur u hmem
            · have hu' : u = w := by simpa using hmem
              subst hu'
              exact ⟨hwne, hwfree⟩)
          hgs
      refine ⟨gs', cur', hfold, ?_, hgs', hcur', ?_⟩
      · rw [hjoin]
        simp [List.append_assoc]
      · intro _
        exact hne' (Or.inr (by simp))

lemma wrapFold_len : ∀ (ws lines cur : List Txt),
    (∀ w ∈ ws, w.length ≤ 90) →
    (∀ w ∈ ws, w ≠ []) →
    (∀ l ∈ lines, l.length ≤ 90) →
    (∀ w ∈ cur, w ≠ []) →
    (joinSpace cur).length ≤ 90 →
    ∃ (lines' cur' : List Txt),
      ws.foldl (wrapStep 90) (lines, cur, (joinSpace cur).length)
        = (lines', cur', (joinSpace cur').length) ∧
      (∀ l ∈ lines', l.length ≤ 90) ∧
      (joinSpace cur').length ≤ 90 ∧
      (∀ w ∈ cur', w ≠ []) := by
  intro ws
  induction ws with
  | nil =>
    intro lines cur h90 hne hlines hcur hclen
    exact ⟨lines, cur, rfl, hlines, hclen, hcur⟩
  | cons w ws' ih =>
    intro lines cur h90 hne hlines hcur hclen
    have hw90 : w.length ≤ 90 := h90 w (by simp)
    have hwne : w ≠ [] := hne w (by simp)
    rw [List.foldl_cons]
    by_cases hover :
        (joinSpace cur).length + w.length + (if cur = [] then 0 else 1) > 90
    · have hstep : wrapStep 90 (lines, cur, (joinSpace cur).length) w
          = (lines ++ [joinSpace cur], [w], (joinSpace [w]).length) := by
        simp only [wrapStep]
        rw [if_pos hover]
        simp [joinSpace]
      rw [hstep]
      refine ih (lines ++ [joinSpace cur]) [w]
        (fun u hu => h90 u (by simp [hu]))
        (fun u hu => hne u (by simp [hu]))
        (by
          intro l hl
          rcases List.mem_append.1 hl with hmem | hmem
          · exact hlines l hmem
          · have hl' : l = joinSpace cur := by simpa using hmem
            subst hl'
            exact hclen)
        (by
          intro u hu
          have hu' : u = w := by simpa using hu
          subst hu'
          exact hwne)
        (by
          show (joinSpace [w]).length ≤ 90
          simpa [joinSpace] using hw90)
    · have hlen : (joinSpace cur).length + w.length
          + (if (joinSpace cur).length = 0 then 0 else 1)
          = (joinSpace (cur ++ [w])).length := by
        rw [joinSpace_concat]
        by_cases hc : cur = []
        · subst hc; simp [joinSpace]
        · have hj : joinSpace cur ≠ [] := joinSpace_ne_nil cur hcur hc
          rw [if_neg hc, if_neg (by simpa using hj)]
          simp only [List.length_append, List.length_cons]
          omega
      have hstep : wrapStep 90 (lines, cur, (joinSpace cur).length) w
          = (lines, cur ++ [w], (joinSpace (cur ++ [w])).length) := by
        simp only [wrapStep]
        rw [if_neg hover, hlen]
      rw [hstep]
      refine ih lines (cur ++ [w])
        (fun u hu => h90 u (by simp [hu]))
        (fun u hu => hne u (by simp [hu]))
        hlines
        (by
          intro u hu
          rcases List.mem_append.1 hu with hmem | hmem
          · exact hcur u hmem
          · have hu' : u = w := by simpa using hmem
            subst hu'
            exact hwne)
        (by
          have hif : (if (joinSpace cur).length = 0 then 0 else 1)
              = (if cur = [] then 0 else 1) := by
            by_cases hc : cur = []
            · subst hc; simp [joinSpace]
            · have hj : joinSpace cur ≠ [] := joinSpace_ne_nil cur hcur hc
              rw [if_neg hc, if_neg (by simpa using hj)]
          rw [← hlen, hif]
          omega)

/-- Claim C7 (amended): `wrap_text` breaks only on word boundaries and
never splits a word — the words of the output lines, concatenated in
order, are exactly the words of the input — and, whenever the text
contains at least one word and every word is at most 90 characters
long, every output line is at most 90 characters long. (For a
whitespace-only text the function returns the original text as the
single line, which can be longer than 90 characters — see the
counterexample.) -/
theorem claim7_wrap :
    ∀ text : Txt,
      ((wrap_text text 90).map pySplit).flatten = pySplit text ∧
      (pySplit text ≠ [] → (∀ w ∈ pySplit text, w.length ≤ 90) →
          ∀ l ∈ wrap_text text 90, l.length ≤ 90) := by
  intro text
  have hwords := pySplitAux_words text [] (by simp)
  have hinit : (([], [], 0) : List Txt × List Txt × Nat)
      = (List.map joinSpace [], [], (joinSpace []).length) := rfl
  obtain ⟨gs', cur', hfold, hjoin, hgs', hcur', hne'⟩ :=
    wrapFold_spec (pySplit text) [] [] hwords (by simp) (by simp)
  constructor
  · simp only [wrap_text]
    rw [hinit, hfold]
    dsimp only
    by_cases hc : cur' = []
    · rw [if_pos hc]
      subst hc
      simp only [List.append_nil] at hjoin
      by_cases hg : gs' = []
      · subst hg
        rw [if_pos (by simp)]
        simp only [List.flatten_nil, List.nil_append] at hjoin
        simp [← hjoin]
      · rw [if_neg (by simpa using hg)]
        rw [List.map_map]
        simp only [Function.comp_def]
        rw [List.map_congr_left (fun g hgm => pySplit_joinSpace g (hgs' g hgm)),
          List.map_id']
        simpa using hjoin
    · rw [if_neg hc, if_neg (by simp)]
      rw [List.map_append, List.map_map]
      simp only [Function.comp_def]
      rw [List.map_congr_left (fun g hgm => pySplit_joinSpace g (hgs' g hgm)),
        List.map_id', List.flatten_append]
      simp only [List.map_cons, List.map_nil, pySplit_joinSpace cur' hcur',
        List.flatten_cons, List.flatten_nil, List.append_nil]
      simpa using hjoin
  · intro hne h90
    obtain ⟨lines', cur'', hfold2, hlines, hclen, hcurne⟩ :=
      wrapFold_len (pySplit text) [] [] h90 (fun w hw => (hwords w hw).1)
        (by simp) (by simp) (by simp [joinSpace])
    have hloop : (List.map joinSpace gs', cur', (joinSpace cur').length)
        = (lines', cur'', (joinSpace cur'').length) := hfold.symm.trans hfold2
    have hcc : cur' = cur'' := by
      have := congrArg (fun st => st.2.1) hloop
      simpa using this
    have hcne : cur'' ≠ [] := hcc ▸ hne' (Or.inl hne)
    have hinit2 : (([], [], 0) : List Txt × List Txt × Nat)
        = (([] : List Txt), ([] : List Txt), (joinSpace []).length) := rfl
    simp only [wrap_text]
    rw [hinit2, hfold2]
    dsimp only
    rw [if_neg hcne, if_neg (by simp)]
    intro l hl
    rcases List.mem_append.1 hl with hm | hm
    · exact hlines l hm
    · have hl' : l = joinSpace cur'' := by simpa using hm
      rw [hl']
      exact hclen

/-- Claim C7, counterexample to the wording as frozen: a text of 91
spaces has no words at all (the "every word is at most 90 characters"
hypothesis holds vacuously), yet `wrap_text` returns the original
91-character text as its single output line. -/
theorem claim7_cex :
    wrap_text (List.replicate 91 ' ') 90 = [List.replicate 91 ' '] ∧
    (List.replicate 91 ' ').length = 91 ∧
    pySplit (List.replicate 91 ' ') = [] := by
  refine ⟨by rfl, by rfl, by rfl⟩

/-- Claim C7, witness: on `"hola mundo"` the words are preserved in
order and the single output line is within the 90-character bound. -/
theorem claim7_witness :
    ((wrap_text ("hola mundo".toList) 90).map pySplit).flatten
      = pySplit ("hola mundo".toList) ∧
    ("hola mundo".toList : Txt).length ≤ 90 := by
  refine ⟨(claim7_wrap ("hola mundo".toList)).1, ?_⟩
  exact (claim7_wrap ("hola mundo".toList)).2 (by decide) (by decide)
    ("hola mundo".toList) (by decide)
